import Mathlib

/-!
Shallow embedding of the smart-home temperature backend.

The repository stores rooms in a `room_temperatures` table keyed by
(user_id, room) with a numeric temperature, pending delayed changes in a
`scheduled_temperatures` table (id, user_id, room, temperature, execute_at),
and a `chat_history` log.  Stores are modelled as lists of records inside a
`DB` value; each supabase call is translated to an explicit list operation,
and the points where the handlers inspect a returned `error` are driven by
explicit Boolean failure flags (`StoreErrs`, and per-entry oracles for the
scheduler loop).  Timestamps and temperatures are integers; the ISO-string
comparison `lte(execute_at, now)` is monotone in time and is modelled as
integer `≤`.

`Route` embeds `src/app/api/chat/route.ts` (the handler whose delayed path
uses an in-process `setTimeout`; its registered callbacks are recorded in the
`timers` field so that what the call persists versus what it merely holds in
process memory is visible in the state).  `Draft2` embeds the competing draft
`src/unnamed/part_002` (durable `scheduled_temperatures` insert).  `Sched`
embeds the scheduler tick `processScheduledTemperatureUpdates` of
`src/unnamed/part_003` (the variant that filters on the `execute_at` column
actually written by the insert).
-/

structure RoomRec where
  user_id : String
  room : String
  temperature : Int
deriving DecidableEq

structure SchedRec where
  id : Nat
  user_id : String
  room : String
  temperature : Int
  execute_at : Int
deriving DecidableEq

/-- An in-process `setTimeout` registration of the route's delayed path:
the callback would update (user_id, room) to `temperature` after `delayMs`
milliseconds.  It lives only in process memory, not in any store. -/
structure TimerRec where
  user_id : String
  room : String
  temperature : Int
  delayMs : Int
deriving DecidableEq

structure ChatRec where
  user_id : String
  message : String
  response : String
deriving DecidableEq

structure DB where
  rooms : List RoomRec
  sched : List SchedRec
  chat : List ChatRec
  timers : List TimerRec
deriving DecidableEq

/-- Failure flags for the store calls whose `error` result the handlers
inspect: the rooms select of `getUserRooms`, the insert/upsert of
`createRoom`, the `.single()` temperature select of `getTemperature`, the
`room_temperatures` update, and the `scheduled_temperatures` insert. -/
structure StoreErrs where
  roomsErr : Bool
  createErr : Bool
  readErr : Bool
  updateErr : Bool
  schedInsErr : Bool
deriving DecidableEq

def errsOk : StoreErrs := ⟨false, false, false, false, false⟩

/-- `getUserRooms` (identical in route.ts and part_002):
select `room` from `room_temperatures` where `user_id = u`;
`return error || !data ? [] : data.map((room) => room.room)`. -/
def getUserRooms (db : DB) (err : Bool) (u : String) : List String :=
  if err then []
  else (db.rooms.filter (fun rec => rec.user_id == u)).map (fun rec => rec.room)

/-- The supabase upsert of route.ts `createRoom` with conflict target
(user_id, room): on conflict the row's temperature is overwritten, otherwise
a fresh row is appended. -/
def upsertRoom (rooms : List RoomRec) (u r : String) (t : Int) : List RoomRec :=
  if rooms.any (fun rec => rec.user_id == u && rec.room == r) then
    rooms.map (fun rec =>
      if rec.user_id == u && rec.room == r then { rec with temperature := t } else rec)
  else rooms ++ [⟨u, r, t⟩]

/-- `update({ temperature }).eq('room', r)`: the route.ts immediate path
filters only on the room name (no user_id filter). -/
def setTempAllRooms (rooms : List RoomRec) (r : String) (t : Int) : List RoomRec :=
  rooms.map (fun rec => if rec.room == r then { rec with temperature := t } else rec)

/-- `update({ temperature }).eq('user_id', u).eq('room', r)`: the owner-scoped
update used by part_002's `applyTemperatureChange`, the route's timer
callback, and the scheduler loop. -/
def setTempUserRoom (rooms : List RoomRec) (u r : String) (t : Int) : List RoomRec :=
  rooms.map (fun rec =>
    if rec.user_id == u && rec.room == r then { rec with temperature := t } else rec)

/-- The `.single()` temperature select of `getTemperature`: succeeds exactly
when the (user_id, room) filter matches exactly one row. -/
def selectSingleTemp (rooms : List RoomRec) (u r : String) : Option Int :=
  match rooms.filter (fun rec => rec.user_id == u && rec.room == r) with
  | [rec] => some rec.temperature
  | _ => none

/-- Observation helper: the temperature of the first row matching
(user_id, room), if any. -/
def findTemp (rooms : List RoomRec) (u r : String) : Option Int :=
  (rooms.find? (fun rec => rec.user_id == u && rec.room == r)).map
    (fun rec => rec.temperature)

/-- `saveChatHistory`: insert one (user_id, message, response) row into
`chat_history` (its error result is discarded by the caller). -/
def saveChatHistory (db : DB) (u msg resp : String) : DB :=
  { db with chat := db.chat ++ [⟨u, msg, resp⟩] }

/-- The structured function call the model returns to the POST handler,
after the handler has applied `args.delayMinutes || 0` defaulting. -/
inductive FunctionCall where
  | get_temperature (room : String)
  | set_temperature (room : String) (temperature : Int) (delayMinutes : Int)
  | create_room (room : String)
  | unknown
deriving DecidableEq

namespace Route

/-- route.ts `createRoom`: refetch the owner's rooms; if the name is absent,
upsert a row at the default 22°C; return a failure message on store error and
`null` (here `none`) otherwise. -/
def createRoom (errs : StoreErrs) (db : DB) (u r : String) : DB × Option String :=
  let userRooms := getUserRooms db errs.roomsErr u
  if r ∈ userRooms then (db, none)
  else if errs.createErr then (db, some ("❌ Failed to create room " ++ r ++ "."))
  else ({ db with rooms := upsertRoom db.rooms u r 22 }, none)

/-- route.ts `getTemperature`: not-found message when the name is missing
from `getUserRooms`, otherwise a `.single()` read formatted on success. -/
def getTemperature (errs : StoreErrs) (db : DB) (u r : String) : String :=
  let userRooms := getUserRooms db errs.roomsErr u
  if r ∉ userRooms then
    "❌ Room \"" ++ r ++ "\" does not exist. Please create it first."
  else
    match (if errs.readErr then none else selectSingleTemp db.rooms u r) with
    | none => "❌ No temperature data found for " ++ r ++ "."
    | some t => "🌡️ The current temperature in " ++ r ++ " is " ++ toString t ++ "°C."

/-- route.ts `setTemperature`: ensure the room exists (the return value of
`createRoom` is ignored); with `delayMinutes > 0` register a `setTimeout`
callback and return the confirmation; otherwise run the immediate update,
which filters on the room name only. -/
def setTemperature (errs : StoreErrs) (db : DB) (u r : String) (t d : Int) : DB × String :=
  let userRooms := getUserRooms db errs.roomsErr u
  let db1 := if r ∈ userRooms then db else (createRoom errs db u r).1
  if 0 < d then
    ({ db1 with timers := db1.timers ++ [⟨u, r, t, d * 60 * 1000⟩] },
      "⏳ The temperature in " ++ r ++ " will be changed to " ++ toString t ++
        "°C in " ++ toString d ++ " minutes.")
  else
    if errs.updateErr then
      (db1, "❌ Failed to update temperature for " ++ r ++ ".")
    else
      ({ db1 with rooms := setTempAllRooms db1.rooms r t },
        "✅ The temperature in " ++ r ++ " has been set to " ++ toString t ++ "°C.")

/-- The function-call branch of the route.ts POST handler: dispatch on the
function name, then either log the reply through `saveChatHistory` and
return it, or (when the handler returned `null`) reply with the empty
string and log nothing. -/
def handleFunctionCall (errs : StoreErrs) (db : DB) (u userMessage : String)
    (fc : FunctionCall) : DB × String :=
  let res : DB × Option String :=
    match fc with
    | .get_temperature r => (db, some (getTemperature errs db u r))
    | .set_temperature r t d =>
        let s := setTemperature errs db u r t d
        (s.1, some s.2)
    | .create_room r => createRoom errs db u r
    | .unknown => (db, some "Unknown function.")
  match res.2 with
  | some resp => (saveChatHistory res.1 u userMessage resp, resp)
  | none => (res.1, "")

end Route

namespace Draft2

/-- part_002 `createRoom`: plain insert of the default 22°C row when the
name is absent; returns the failure message on store error. -/
def createRoom (errs : StoreErrs) (db : DB) (u r : String) : DB × Option String :=
  let userRooms := getUserRooms db errs.roomsErr u
  if r ∈ userRooms then (db, none)
  else if errs.createErr then (db, some ("❌ Failed to create room " ++ r ++ "."))
  else ({ db with rooms := db.rooms ++ [⟨u, r, 22⟩] }, none)

/-- part_002 `applyTemperatureChange`: owner-scoped update of
`room_temperatures`. -/
def applyTemperatureChange (errs : StoreErrs) (db : DB) (u r : String) (t : Int) :
    DB × String :=
  if errs.updateErr then
    (db, "❌ Failed to update temperature for " ++ r ++ ".")
  else
    ({ db with rooms := setTempUserRoom db.rooms u r t },
      "✅ The temperature in " ++ r ++ " has been set to " ++ toString t ++ "°C.")

/-- part_002 `setTemperature`: ensure the room exists (result ignored); with
`delayMinutes > 0` insert a `scheduled_temperatures` row with
`execute_at = now + delayMinutes * 60 * 1000` (the row id is generated by
the store, passed here as `nextId`) and confirm with the computed due-time
(`toLocaleTimeString` is rendered as `toString` of the timestamp); otherwise
apply immediately. -/
def setTemperature (errs : StoreErrs) (now : Int) (nextId : Nat) (db : DB)
    (u r : String) (t d : Int) : DB × String :=
  let userRooms := getUserRooms db errs.roomsErr u
  let db1 := if r ∈ userRooms then db else (createRoom errs db u r).1
  if 0 < d then
    let executeAt := now + d * 60 * 1000
    if errs.schedInsErr then
      (db1, "❌ Failed to schedule temperature change for " ++ r ++ ".")
    else
      ({ db1 with sched := db1.sched ++ [⟨nextId, u, r, t, executeAt⟩] },
        "⏳ The temperature in " ++ r ++ " will be changed to " ++ toString t ++
          "°C at " ++ toString executeAt ++ ".")
  else applyTemperatureChange errs db1 u r t

end Draft2

namespace Sched

/-- One loop body application to `room_temperatures`:
`update({ temperature }).eq('user_id', ...).eq('room', ...)`. -/
def applyEntry (rooms : List RoomRec) (e : SchedRec) : List RoomRec :=
  setTempUserRoom rooms e.user_id e.room e.temperature

/-- One iteration of the part_003 loop for entry `e`: if the room update
fails, `continue` (state untouched, entry kept); otherwise apply the update
and issue `delete().eq('id', e.id)`, whose own error result the code
discards. -/
def stepEntry (updFail delFail : SchedRec → Bool) (db : DB) (e : SchedRec) : DB :=
  if updFail e then db
  else
    let db1 := { db with rooms := applyEntry db.rooms e }
    if delFail e then db1
    else { db1 with sched := db1.sched.filter (fun s => !(s.id == e.id)) }

/-- The due-entry query: `select('*').lte('execute_at', currentTime)`, with
no ordering clause — the list keeps the store's stored order. -/
def dueEntries (now : Int) (db : DB) : List SchedRec :=
  db.sched.filter (fun e => decide (e.execute_at ≤ now))

/-- part_003 `processScheduledTemperatureUpdates`: on fetch error return the
error response; with no due entries return the no-op response; otherwise
iterate the fetched list in order through `stepEntry`. -/
def processScheduledTemperatureUpdates (fetchErr : Bool)
    (updFail delFail : SchedRec → Bool) (now : Int) (db : DB) : DB × String :=
  if fetchErr then (db, "Error fetching scheduled updates")
  else
    let due := dueEntries now db
    if due.isEmpty then (db, "No scheduled updates")
    else (due.foldl (stepEntry updFail delFail) db, "Scheduled temperature updates applied")

end Sched

/-! Concrete fixtures used to evaluate the handlers at specific inputs. -/

def errsCreateFail : StoreErrs := ⟨false, true, false, false, false⟩

/-- Two owners each having a room named "kitchen". -/
def dbCross : DB := ⟨[⟨"alice", "kitchen", 22⟩, ⟨"bob", "kitchen", 20⟩], [], [], []⟩

/-- A single owner with one room. -/
def dbOne : DB := ⟨[⟨"u1", "kitchen", 22⟩], [], [], []⟩

/-- Only owner "bob" has a room named "kitchen". -/
def dbBob : DB := ⟨[⟨"bob", "kitchen", 20⟩], [], [], []⟩

/-- Empty stores. -/
def dbNone : DB := ⟨[], [], [], []⟩

/-- Owner "alice" has a room, but not the one being asked about. -/
def dbOther : DB := ⟨[⟨"alice", "livingroom", 21⟩], [], [], []⟩

/-- One room plus two due scheduled changes for it, stored with the
later-due entry (due-time 100, temperature 30) before the earlier-due one
(due-time 50, temperature 18). -/
def dbSched : DB :=
  ⟨[⟨"u", "kitchen", 22⟩],
   [⟨1, "u", "kitchen", 30, 100⟩, ⟨2, "u", "kitchen", 18, 50⟩], [], []⟩

/-! Helper lemmas about the store primitives. -/

theorem getUserRooms_spec (db : DB) (u name : String) :
    name ∈ getUserRooms db false u ↔
      ∃ rec, rec ∈ db.rooms ∧ rec.user_id = u ∧ rec.room = name := by
  simp only [getUserRooms, if_neg Bool.false_ne_true, List.mem_map, List.mem_filter,
    beq_iff_eq]
  constructor
  · rintro ⟨rec, ⟨hm, hu⟩, hr⟩
    exact ⟨rec, hm, hu, hr⟩
  · rintro ⟨rec, hm, hu, hr⟩
    exact ⟨rec, ⟨hm, hu⟩, hr⟩

theorem findTemp_eq_none_iff (rooms : List RoomRec) (u r : String) :
    findTemp rooms u r = none ↔ ∀ rec ∈ rooms, ¬(rec.user_id = u ∧ rec.room = r) := by
  simp [findTemp, List.find?_eq_none, beq_iff_eq, not_and]

theorem not_mem_getUserRooms_iff (db : DB) (u r : String) :
    r ∉ getUserRooms db false u ↔ findTemp db.rooms u r = none := by
  rw [getUserRooms_spec, findTemp_eq_none_iff]
  simp [not_and]

theorem any_key_eq_false_iff (rooms : List RoomRec) (u r : String) :
    rooms.any (fun rec => rec.user_id == u && rec.room == r) = false ↔
      findTemp rooms u r = none := by
  rw [findTemp_eq_none_iff]
  simp [List.any_eq_true, beq_iff_eq, not_and]

theorem findTemp_append_right_of_none (l1 l2 : List RoomRec) (u r : String)
    (h : findTemp l1 u r = none) :
    findTemp (l1 ++ l2) u r = findTemp l2 u r := by
  have h' : l1.find? (fun rec => rec.user_id == u && rec.room == r) = none := by
    simpa [findTemp] using h
  simp [findTemp, List.find?_append, h']

theorem findTemp_append_left_of_some (l1 l2 : List RoomRec) (u r : String) (t : Int)
    (h : findTemp l1 u r = some t) :
    findTemp (l1 ++ l2) u r = some t := by
  rw [findTemp, Option.map_eq_some'] at h
  obtain ⟨rec, hrec, ht⟩ := h
  simp [findTemp, List.find?_append, hrec, ht]

theorem findTemp_singleton (x : RoomRec) (v s : String) (hne : ¬(v = x.user_id ∧ s = x.room)) :
    findTemp [x] v s = none := by
  have hpx : (x.user_id == v && x.room == s) = false := by
    rw [Bool.eq_false_iff]
    intro hcon
    simp only [Bool.and_eq_true, beq_iff_eq] at hcon
    exact hne ⟨hcon.1.symm, hcon.2.symm⟩
  simp [findTemp, List.find?, hpx]

theorem findTemp_singleton_self (u r : String) (t : Int) :
    findTemp [(⟨u, r, t⟩ : RoomRec)] u r = some t := by
  simp [findTemp, List.find?]

theorem findTemp_setTempUserRoom (l : List RoomRec) (u0 r0 u r : String) (t : Int) :
    findTemp (setTempUserRoom l u0 r0 t) u r =
      if u0 = u ∧ r0 = r then (findTemp l u r).map (fun _ => t)
      else findTemp l u r := by
  have hcong : ((fun rec : RoomRec => rec.user_id == u && rec.room == r) ∘
      (fun rec : RoomRec =>
        if rec.user_id == u0 && rec.room == r0 then { rec with temperature := t } else rec))
      = (fun rec : RoomRec => rec.user_id == u && rec.room == r) := by
    funext rec
    by_cases h : (rec.user_id == u0 && rec.room == r0) = true
    · simp [Function.comp, h]
    · simp [Function.comp, h]
  rw [findTemp, setTempUserRoom, List.find?_map, hcong]
  cases hfound : l.find? (fun rec => rec.user_id == u && rec.room == r) with
  | none =>
      by_cases hk : u0 = u ∧ r0 = r <;> simp [findTemp, hfound, hk]
  | some rec =>
      have hq := List.find?_some hfound
      simp only [Bool.and_eq_true, beq_iff_eq] at hq
      by_cases hk : u0 = u ∧ r0 = r
      · have hb : (rec.user_id == u0 && rec.room == r0) = true := by
          simp [hq.1, hq.2, hk.1, hk.2]
        simp [findTemp, hfound, hk, hb, hq.1, hq.2]
      · have hb : (rec.user_id == u0 && rec.room == r0) = false := by
          rw [Bool.eq_false_iff]
          intro hcon
          simp only [Bool.and_eq_true, beq_iff_eq] at hcon
          exact hk ⟨hcon.1.symm.trans hq.1, hcon.2.symm.trans hq.2⟩
        have hnot : ¬(rec.user_id = u0 ∧ rec.room = r0) := fun hcon =>
          hk ⟨hcon.1.symm.trans hq.1, hcon.2.symm.trans hq.2⟩
        simp [findTemp, hfound, hk, hb, hnot]

theorem findTemp_setTempAllRooms (l : List RoomRec) (r0 u r : String) (t : Int) :
    findTemp (setTempAllRooms l r0 t) u r =
      if r0 = r then (findTemp l u r).map (fun _ => t) else findTemp l u r := by
  have hcong : ((fun rec : RoomRec => rec.user_id == u && rec.room == r) ∘
      (fun rec : RoomRec => if rec.room == r0 then { rec with temperature := t } else rec))
      = (fun rec : RoomRec => rec.user_id == u && rec.room == r) := by
    funext rec
    by_cases h : (rec.room == r0) = true
    · simp [Function.comp, h]
    · simp [Function.comp, h]
  rw [findTemp, setTempAllRooms, List.find?_map, hcong]
  cases hfound : l.find? (fun rec => rec.user_id == u && rec.room == r) with
  | none =>
      by_cases hk : r0 = r <;> simp [findTemp, hfound, hk]
  | some rec =>
      have hq := List.find?_some hfound
      simp only [Bool.and_eq_true, beq_iff_eq] at hq
      by_cases hk : r0 = r
      · have hb : (rec.room == r0) = true := by
          simp [hq.2, hk]
        simp [findTemp, hfound, hk, hb, hq.2]
      · have hb : (rec.room == r0) = false := by
          rw [Bool.eq_false_iff]
          intro hcon
          simp only [beq_iff_eq] at hcon
          exact hk (hcon.symm.trans hq.2)
        have hnot : ¬(rec.room = r0) := fun hcon => hk (hcon.symm.trans hq.2)
        simp [findTemp, hfound, hk, hb, hnot]

theorem filter_setTempAllRooms (l : List RoomRec) (u r : String) (t : Int) :
    (setTempAllRooms l r t).filter (fun rec => rec.user_id == u && rec.room == r)
      = (l.filter (fun rec => rec.user_id == u && rec.room == r)).map
          (fun rec => { rec with temperature := t }) := by
  have hcong : ((fun rec : RoomRec => rec.user_id == u && rec.room == r) ∘
      (fun rec : RoomRec => if rec.room == r then { rec with temperature := t } else rec))
      = (fun rec : RoomRec => rec.user_id == u && rec.room == r) := by
    funext rec
    by_cases h : (rec.room == r) = true
    · simp [Function.comp, h]
    · simp [Function.comp, h]
  rw [setTempAllRooms, List.filter_map, hcong]
  apply List.map_congr_left
  intro rec hrec
  have hmem := (List.mem_filter.mp hrec).2
  simp only [Bool.and_eq_true] at hmem
  simp [hmem.2]

/-! Lemmas about the scheduler loop. -/

theorem Sched.dueEntries_sub (now : Int) (db : DB) (e : SchedRec)
    (h : e ∈ Sched.dueEntries now db) : e ∈ db.sched :=
  (List.mem_filter.mp h).1

theorem Sched.rooms_foldl_stepEntry (updFail delFail : SchedRec → Bool) :
    ∀ (es : List SchedRec) (db : DB), (∀ e ∈ es, updFail e = false) →
      (es.foldl (Sched.stepEntry updFail delFail) db).rooms
        = es.foldl Sched.applyEntry db.rooms := by
  intro es
  induction es with
  | nil => intro db _; rfl
  | cons e rest ih =>
    intro db h
    have he : updFail e = false := h e (List.mem_cons_self e rest)
    have hrest : ∀ e' ∈ rest, updFail e' = false := fun e' hm =>
      h e' (List.mem_cons_of_mem e hm)
    simp only [List.foldl_cons]
    rw [ih (Sched.stepEntry updFail delFail db e) hrest]
    have hrooms : (Sched.stepEntry updFail delFail db e).rooms
        = Sched.applyEntry db.rooms e := by
      unfold Sched.stepEntry
      rw [if_neg (by simp [he])]
      by_cases hd : delFail e = true
      · simp [hd]
      · simp [hd]
    rw [hrooms]

theorem findTemp_foldl_applyEntry (u r : String) :
    ∀ (es : List SchedRec) (rooms : List RoomRec),
      findTemp (es.foldl Sched.applyEntry rooms) u r =
        match es.reverse.find? (fun e => e.user_id == u && e.room == r) with
        | some e => (findTemp rooms u r).map (fun _ => e.temperature)
        | none => findTemp rooms u r := by
  intro es
  induction es with
  | nil => intro rooms; simp
  | cons e rest ih =>
    intro rooms
    simp only [List.foldl_cons, List.reverse_cons, List.find?_append]
    rw [ih (Sched.applyEntry rooms e)]
    have happ : findTemp (Sched.applyEntry rooms e) u r =
        if e.user_id = u ∧ e.room = r then (findTemp rooms u r).map (fun _ => e.temperature)
        else findTemp rooms u r := findTemp_setTempUserRoom rooms e.user_id e.room u r e.temperature
    cases hlast : rest.reverse.find? (fun x => x.user_id == u && x.room == r) with
    | some e' =>
      simp only [Option.or_some]
      rw [happ]
      by_cases hk : e.user_id = u ∧ e.room = r
      · simp only [if_pos hk]
        cases findTemp rooms u r <;> simp
      · simp only [if_neg hk]
    | none =>
      rw [happ]
      by_cases hk : e.user_id = u ∧ e.room = r
      · have hb : (e.user_id == u && e.room == r) = true := by simp [hk.1, hk.2]
        simp only [if_pos hk, Option.none_or, List.find?, hb]
      · have hb : (e.user_id == u && e.room == r) = false := by
          rw [Bool.eq_false_iff]
          intro hcon
          simp only [Bool.and_eq_true, beq_iff_eq] at hcon
          exact hk hcon
        simp only [if_neg hk, Option.none_or, List.find?, hb]

theorem Sched.not_mem_sched_foldl (updFail delFail : SchedRec → Bool) (e : SchedRec) :
    ∀ (es : List SchedRec) (db : DB), e ∉ db.sched →
      e ∉ (es.foldl (Sched.stepEntry updFail delFail) db).sched := by
  intro es
  induction es with
  | nil => intro db h; exact h
  | cons e' rest ih =>
    intro db h
    apply ih
    unfold Sched.stepEntry
    by_cases h1 : updFail e' = true
    · simp only [if_pos h1]; exact h
    · simp only [if_neg h1]
      by_cases h2 : delFail e' = true
      · simp only [if_pos h2]; exact h
      · simp only [if_neg h2]
        intro hmem
        exact h (List.mem_filter.mp hmem).1

theorem Sched.mem_sched_foldl_of_updFail (updFail delFail : SchedRec → Bool)
    (e : SchedRec) :
    ∀ (es : List SchedRec) (db : DB),
      (∀ e' ∈ es, updFail e' = true ∨ e'.id ≠ e.id) → e ∈ db.sched →
      e ∈ (es.foldl (Sched.stepEntry updFail delFail) db).sched := by
  intro es
  induction es with
  | nil => intro db _ h; exact h
  | cons e' rest ih =>
    intro db hall h
    have hrest : ∀ x ∈ rest, updFail x = true ∨ x.id ≠ e.id := fun x hm =>
      hall x (List.mem_cons_of_mem e' hm)
    apply ih _ hrest
    unfold Sched.stepEntry
    by_cases h1 : updFail e' = true
    · simp only [if_pos h1]; exact h
    · simp only [if_neg h1]
      have hid : e'.id ≠ e.id := by
        rcases hall e' (List.mem_cons_self e' rest) with hc | hc
        · exact absurd hc h1
        · exact hc
      by_cases h2 : delFail e' = true
      · simp only [if_pos h2]; exact h
      · simp only [if_neg h2]
        refine List.mem_filter.mpr ⟨h, ?_⟩
        simp only [Bool.not_eq_true']
        rw [beq_eq_false_iff_ne]
        exact fun hc => hid hc.symm

theorem Sched.not_mem_sched_foldl_of_applied (updFail delFail : SchedRec → Bool)
    (e : SchedRec) (hupd : updFail e = false) (hdel : delFail e = false) :
    ∀ (es : List SchedRec) (db : DB), e ∈ es →
      e ∉ (es.foldl (Sched.stepEntry updFail delFail) db).sched := by
  intro es
  induction es with
  | nil => intro db h; exact absurd h (List.not_mem_nil e)
  | cons e' rest ih =>
    intro db hmem
    rcases List.mem_cons.mp hmem with heq | hrest
    · subst heq
      simp only [List.foldl_cons]
      apply Sched.not_mem_sched_foldl
      have h1 : ¬(updFail e = true) := by rw [hupd]; exact Bool.false_ne_true
      have h2 : ¬(delFail e = true) := by rw [hdel]; exact Bool.false_ne_true
      have hstep : (Sched.stepEntry updFail delFail db e).sched
          = db.sched.filter (fun s => !(s.id == e.id)) := by
        unfold Sched.stepEntry
        rw [if_neg h1, if_neg h2]
      rw [hstep]
      intro hc
      have hbad := (List.mem_filter.mp hc).2
      simp at hbad
    · simp only [List.foldl_cons]
      exact ih (Sched.stepEntry updFail delFail db e') hrest

/-! Claim theorems. -/

/-- Claim C1: the claim says the immediate apply path of `set_temperature`
writes only to the Room Store entry keyed by (owner, room).  In route.ts the
immediate update filters on the room name alone, so when owner "alice" sets
her "kitchen" to 25 with no delay, owner "bob"'s room that happens to share
the name "kitchen" is overwritten from 20 to 25 as well. -/
theorem c1_cross_owner_write :
    findTemp ((Route.setTemperature errsOk dbCross "alice" "kitchen" 25 0).1).rooms
        "bob" "kitchen" = some 25
    ∧ findTemp dbCross.rooms "bob" "kitchen" = some 20 := by
  exact ⟨rfl, rfl⟩

/-- Claim C2: the claim says the delayed path persists a ScheduledChange due
at now + delayMinutes and that no in-process timer is the sole record of the
pending change.  In route.ts the delayed path returns the confirmation but
leaves the Scheduled-Change Store empty; the only record of the pending
change is the in-process `setTimeout` registration. -/
theorem c2_delayed_path_not_durable :
    (Route.setTemperature errsOk dbOne "u1" "kitchen" 25 10).1.sched = []
    ∧ (Route.setTemperature errsOk dbOne "u1" "kitchen" 25 10).1.timers
        = [⟨"u1", "kitchen", 25, 600000⟩]
    ∧ (Route.setTemperature errsOk dbOne "u1" "kitchen" 25 10).2
        = "⏳ The temperature in kitchen will be changed to 25°C in 10 minutes." := by
  exact ⟨rfl, rfl, rfl⟩

/-- Claim C5: the claim says a room-creation failure aborts
`set_temperature` with a room-creation-failed error and no further action.
In both handlers the result of `createRoom` is discarded: on the immediate
path route.ts still runs the (room-name-keyed) update — here overwriting
"bob"'s same-named room — and reports success, and on the delayed path
part_002 still inserts the ScheduledChange row for the room it failed to
create. -/
theorem c5_creation_failure_not_aborting :
    (Route.setTemperature errsCreateFail dbBob "u1" "kitchen" 25 0).2
      = "✅ The temperature in kitchen has been set to 25°C."
    ∧ findTemp ((Route.setTemperature errsCreateFail dbBob "u1" "kitchen" 25 0).1).rooms
        "bob" "kitchen" = some 25
    ∧ (Draft2.setTemperature errsCreateFail 0 1 dbNone "u1" "kitchen" 25 10).1.sched
        = [⟨1, "u1", "kitchen", 25, 600000⟩] := by
  exact ⟨rfl, rfl, rfl⟩

/-- Claim C7, counterexample: the claim says due entries are applied in
ascending due-time order, so the latest-due entry wins.  The scheduler query
uses no ordering clause; with the later-due entry (due 100, temperature 30)
stored before the earlier-due one (due 50, temperature 18), a tick at time
100 applies them in stored order and the room ends at 18, not at the
latest-due entry's 30. -/
theorem c7_not_due_time_ordered :
    Sched.dueEntries 100 dbSched
      = [⟨1, "u", "kitchen", 30, 100⟩, ⟨2, "u", "kitchen", 18, 50⟩]
    ∧ findTemp ((Sched.processScheduledTemperatureUpdates false (fun _ => false)
        (fun _ => false) 100 dbSched).1).rooms "u" "kitchen" = some 18
    ∧ some (18 : Int) ≠ some (30 : Int) := by
  exact ⟨rfl, rfl, by decide⟩

/-- Claim C3: with delayMinutes > 0 (and the rooms select succeeding),
`set_temperature` does not change any room's stored temperature during the
call: every (owner, room) pair reads the same temperature as before, except
that the target pair may have been auto-created at the default 22°C when it
did not exist. -/
theorem c3_delayed_set_preserves_rooms (errs : StoreErrs) (db : DB) (u r : String)
    (t d : Int) (hd : 0 < d) (hre : errs.roomsErr = false) (v s : String) :
    findTemp ((Route.setTemperature errs db u r t d).1).rooms v s = findTemp db.rooms v s
    ∨ (v = u ∧ s = r ∧ findTemp db.rooms u r = none
        ∧ findTemp ((Route.setTemperature errs db u r t d).1).rooms v s = some 22) := by
  have hrooms : ((Route.setTemperature errs db u r t d).1).rooms
      = (if r ∈ getUserRooms db errs.roomsErr u then db
         else (Route.createRoom errs db u r).1).rooms := by
    unfold Route.setTemperature
    rw [if_pos hd]
  rw [hrooms, hre]
  by_cases hmem : r ∈ getUserRooms db false u
  · rw [if_pos hmem]
    exact Or.inl rfl
  · rw [if_neg hmem]
    have hnone : findTemp db.rooms u r = none := (not_mem_getUserRooms_iff db u r).mp hmem
    unfold Route.createRoom
    rw [hre, if_neg hmem]
    by_cases hce : errs.createErr = true
    · rw [if_pos hce]
      exact Or.inl rfl
    · rw [if_neg hce]
      have hany : db.rooms.any (fun rec => rec.user_id == u && rec.room == r) = false :=
        (any_key_eq_false_iff db.rooms u r).mpr hnone
      have hup : upsertRoom db.rooms u r 22 = db.rooms ++ [⟨u, r, 22⟩] := by
        unfold upsertRoom
        rw [if_neg (by rw [hany]; exact Bool.false_ne_true)]
      show findTemp (upsertRoom db.rooms u r 22) v s = findTemp db.rooms v s ∨ _
      rw [hup]
      by_cases hvs : v = u ∧ s = r
      · right
        refine ⟨hvs.1, hvs.2, hnone, ?_⟩
        rw [hvs.1, hvs.2, findTemp_append_right_of_none db.rooms _ u r hnone,
          findTemp_singleton_self]
      · left
        cases hft : findTemp db.rooms v s with
        | some t0 => exact findTemp_append_left_of_some db.rooms _ v s t0 hft
        | none =>
          rw [findTemp_append_right_of_none db.rooms _ v s hft]
          exact findTemp_singleton ⟨u, r, 22⟩ v s hvs

/-- Claim C3 witness: instantiated at an existing room, the delayed call
leaves the observed temperature equal to what it was before. -/
theorem c3_witness :
    (0 : Int) < 10
    ∧ (findTemp ((Route.setTemperature errsOk dbOne "u1" "kitchen" 18 10).1).rooms
          "u1" "kitchen" = findTemp dbOne.rooms "u1" "kitchen"
      ∨ ("u1" = "u1" ∧ "kitchen" = "kitchen" ∧ findTemp dbOne.rooms "u1" "kitchen" = none
          ∧ findTemp ((Route.setTemperature errsOk dbOne "u1" "kitchen" 18 10).1).rooms
              "u1" "kitchen" = some 22)) :=
  ⟨by decide, c3_delayed_set_preserves_rooms errsOk dbOne "u1" "kitchen" 18 10
    (by decide) rfl "u1" "kitchen"⟩

theorem filter_key_eq_nil (rooms : List RoomRec) (u r : String)
    (h : findTemp rooms u r = none) :
    rooms.filter (fun rec => rec.user_id == u && rec.room == r) = [] := by
  rw [findTemp_eq_none_iff] at h
  rw [List.filter_eq_nil_iff]
  intro a ha
  simp only [Bool.and_eq_true, beq_iff_eq]
  exact h a ha

/-- Claim C4: with no delay and an unknown (owner, room), `set_temperature`
leaves exactly one Room Store record for that pair, its temperature is the
requested value rather than the default, and a `get_temperature` issued
right after reports that value. -/
theorem c4_no_delay_creates_with_requested_temp (db : DB) (u r : String) (t : Int)
    (hnew : findTemp db.rooms u r = none) :
    (((Route.setTemperature errsOk db u r t 0).1).rooms.filter
        (fun rec => rec.user_id == u && rec.room == r)).length = 1
    ∧ findTemp ((Route.setTemperature errsOk db u r t 0).1).rooms u r = some t
    ∧ Route.getTemperature errsOk (Route.setTemperature errsOk db u r t 0).1 u r
        = "🌡️ The current temperature in " ++ r ++ " is " ++ toString t ++ "°C." := by
  have hmem : r ∉ getUserRooms db false u := (not_mem_getUserRooms_iff db u r).mpr hnew
  have hany : db.rooms.any (fun rec => rec.user_id == u && rec.room == r) = false :=
    (any_key_eq_false_iff db.rooms u r).mpr hnew
  have hup : upsertRoom db.rooms u r 22 = db.rooms ++ [⟨u, r, 22⟩] := by
    unfold upsertRoom
    rw [if_neg (by rw [hany]; exact Bool.false_ne_true)]
  have hrooms : ((Route.setTemperature errsOk db u r t 0).1).rooms
      = setTempAllRooms (db.rooms ++ [⟨u, r, 22⟩]) r t := by
    unfold Route.setTemperature Route.createRoom
    simp only [errsOk]
    rw [if_neg hmem, if_neg (by decide : ¬(0 : Int) < 0), if_neg hmem,
      if_neg (Bool.false_ne_true), if_neg (Bool.false_ne_true)]
    show setTempAllRooms (upsertRoom db.rooms u r 22) r t = _
    rw [hup]
  have hfil : ((Route.setTemperature errsOk db u r t 0).1).rooms.filter
      (fun rec => rec.user_id == u && rec.room == r) = [⟨u, r, t⟩] := by
    rw [hrooms, filter_setTempAllRooms, List.filter_append, filter_key_eq_nil db.rooms u r hnew]
    simp
  refine ⟨by rw [hfil]; rfl, ?_, ?_⟩
  · rw [hrooms, findTemp_setTempAllRooms, if_pos rfl,
      findTemp_append_right_of_none db.rooms _ u r hnew, findTemp_singleton_self]
    rfl
  · have hmem2 : r ∈ getUserRooms (Route.setTemperature errsOk db u r t 0).1 false u := by
      rw [getUserRooms_spec]
      refine ⟨⟨u, r, t⟩, ?_, rfl, rfl⟩
      have hx : (⟨u, r, t⟩ : RoomRec) ∈ ((Route.setTemperature errsOk db u r t 0).1).rooms.filter
          (fun rec => rec.user_id == u && rec.room == r) := by
        rw [hfil]
        exact List.mem_singleton.mpr rfl
      exact (List.mem_filter.mp hx).1
    have hsingle : selectSingleTemp ((Route.setTemperature errsOk db u r t 0).1).rooms u r
        = some t := by
      unfold selectSingleTemp
      rw [hfil]
    unfold Route.getTemperature
    rw [show errsOk.roomsErr = false from rfl, show errsOk.readErr = false from rfl,
      if_neg (not_not_intro hmem2), if_neg (Bool.false_ne_true), hsingle]

/-- Claim C4 witness: from the empty store, setting an unknown kitchen to
25 with no delay yields one record at 25 and a read reporting 25. -/
theorem c4_witness :
    findTemp dbNone.rooms "alice" "kitchen" = none
    ∧ (((Route.setTemperature errsOk dbNone "alice" "kitchen" 25 0).1).rooms.filter
        (fun rec => rec.user_id == "alice" && rec.room == "kitchen")).length = 1
    ∧ findTemp ((Route.setTemperature errsOk dbNone "alice" "kitchen" 25 0).1).rooms
        "alice" "kitchen" = some 25
    ∧ Route.getTemperature errsOk (Route.setTemperature errsOk dbNone "alice" "kitchen" 25 0).1
        "alice" "kitchen" = "🌡️ The current temperature in kitchen is 25°C." := by
  have h := c4_no_delay_creates_with_requested_temp dbNone "alice" "kitchen" 25 (by decide)
  exact ⟨by decide, h.1, h.2.1, h.2.2⟩

/-- Claim C6: for an (owner, room) pair with no record, `get_temperature`
returns the room-does-not-exist message, and the dispatched turn leaves the
Room Store exactly as it was: no room is created as a side effect. -/
theorem c6_get_unknown_room_not_found (errs : StoreErrs) (db : DB) (u r um : String)
    (h : findTemp db.rooms u r = none) :
    Route.getTemperature errs db u r
      = "❌ Room \"" ++ r ++ "\" does not exist. Please create it first."
    ∧ ((Route.handleFunctionCall errs db u um (FunctionCall.get_temperature r)).1).rooms
        = db.rooms := by
  have hmem : r ∉ getUserRooms db errs.roomsErr u := by
    cases herr : errs.roomsErr with
    | true => simp [getUserRooms]
    | false => exact (not_mem_getUserRooms_iff db u r).mpr h
  constructor
  · unfold Route.getTemperature
    rw [if_pos hmem]
  · rfl

/-- Claim C6 witness: asking for an unrecorded kitchen yields the not-found
message and an unchanged rooms table. -/
theorem c6_witness :
    findTemp dbOther.rooms "alice" "kitchen" = none
    ∧ Route.getTemperature errsOk dbOther "alice" "kitchen"
        = "❌ Room \"kitchen\" does not exist. Please create it first."
    ∧ ((Route.handleFunctionCall errsOk dbOther "alice" "kitchen status"
        (FunctionCall.get_temperature "kitchen")).1).rooms = dbOther.rooms := by
  have h := c6_get_unknown_room_not_found errsOk dbOther "alice" "kitchen" "kitchen status"
    (by decide)
  exact ⟨by decide, h.1, h.2⟩

/-- Claim C9: `getUserRooms` yields exactly the room names recorded for the
owner when the select succeeds, and yields the empty list rather than an
error both when the select fails and when the owner has no rooms. -/
theorem c9_rooms_for_owner_never_error (db : DB) (u : String) (err : Bool) :
    (err = true → getUserRooms db err u = [])
    ∧ (err = false → ∀ name : String,
        (name ∈ getUserRooms db err u ↔
          ∃ rec, rec ∈ db.rooms ∧ rec.user_id = u ∧ rec.room = name))
    ∧ (err = false → db.rooms.filter (fun rec => rec.user_id == u) = [] →
        getUserRooms db err u = []) := by
  refine ⟨?_, ?_, ?_⟩
  · intro h
    rw [h]
    rfl
  · intro h name
    rw [h]
    exact getUserRooms_spec db u name
  · intro h hemp
    rw [h]
    unfold getUserRooms
    rw [if_neg (Bool.false_ne_true), hemp]
    rfl

/-- Claim C9 witness: instantiated at a store with one room: a failing
select yields [], a succeeding select is characterized by membership, and an
owner with no rows gets []. -/
theorem c9_witness :
    getUserRooms dbOne true "u1" = []
    ∧ ("kitchen" ∈ getUserRooms dbOne false "u1" ↔
        ∃ rec, rec ∈ dbOne.rooms ∧ rec.user_id = "u1" ∧ rec.room = "kitchen")
    ∧ getUserRooms dbOne false "bob" = [] :=
  ⟨(c9_rooms_for_owner_never_error dbOne "u1" true).1 rfl,
   (c9_rooms_for_owner_never_error dbOne "u1" false).2.1 rfl "kitchen",
   (c9_rooms_for_owner_never_error dbOne "bob" false).2.2 rfl (by decide)⟩

/-- Claim C10: when the resolved command is create_room and the insertion
succeeds or the room already exists, the POST handler replies with the empty
string and appends nothing to the chat_history log. -/
theorem c10_create_room_silent_success (errs : StoreErrs) (db : DB) (u um r : String)
    (h : errs.createErr = false ∨ r ∈ getUserRooms db errs.roomsErr u) :
    (Route.handleFunctionCall errs db u um (FunctionCall.create_room r)).2 = ""
    ∧ ((Route.handleFunctionCall errs db u um (FunctionCall.create_room r)).1).chat
        = db.chat := by
  have hcr : (Route.createRoom errs db u r).2 = none
      ∧ (Route.createRoom errs db u r).1.chat = db.chat := by
    unfold Route.createRoom
    by_cases hmem : r ∈ getUserRooms db errs.roomsErr u
    · rw [if_pos hmem]
      exact ⟨rfl, rfl⟩
    · rw [if_neg hmem]
      rcases h with hce | hce
      · rw [if_neg (by rw [hce]; exact Bool.false_ne_true)]
        exact ⟨rfl, rfl⟩
      · exact absurd hce hmem
  have hfc : Route.handleFunctionCall errs db u um (FunctionCall.create_room r)
      = ((Route.createRoom errs db u r).1, "") := by
    show (match (Route.createRoom errs db u r).2 with
      | some resp => (saveChatHistory (Route.createRoom errs db u r).1 u um resp, resp)
      | none => ((Route.createRoom errs db u r).1, ""))
      = ((Route.createRoom errs db u r).1, "")
    rw [hcr.1]
  rw [hfc]
  exact ⟨rfl, hcr.2⟩

/-- Claim C10 witness: creating a fresh kitchen from the empty store replies
with the empty string and logs no chat row. -/
theorem c10_witness :
    (Route.handleFunctionCall errsOk dbNone "u1" "add a kitchen"
        (FunctionCall.create_room "kitchen")).2 = ""
    ∧ ((Route.handleFunctionCall errsOk dbNone "u1" "add a kitchen"
        (FunctionCall.create_room "kitchen")).1).chat = [] :=
  c10_create_room_silent_success errsOk dbNone "u1" "add a kitchen" "kitchen" (Or.inl rfl)

theorem Sched.process_eq_foldl (updFail delFail : SchedRec → Bool) (now : Int) (db : DB)
    (hne : (Sched.dueEntries now db).isEmpty = false) :
    (Sched.processScheduledTemperatureUpdates false updFail delFail now db).1
      = (Sched.dueEntries now db).foldl (Sched.stepEntry updFail delFail) db := by
  unfold Sched.processScheduledTemperatureUpdates
  rw [if_neg (Bool.false_ne_true), if_neg (by rw [hne]; exact Bool.false_ne_true)]

/-- Claim C7, amended: a tick applies the due entries in the order the store
query returned them (the stored order; no due-time ordering is requested),
so when several due entries target the same existing (owner, room), it is
the last one in that returned order — not the one with the latest due-time —
whose temperature the room ends at (assuming the room-store writes
succeed). -/
theorem c7_last_in_store_order_wins (updFail delFail : SchedRec → Bool) (now : Int)
    (db : DB) (u r : String) (e : SchedRec) (t0 : Int)
    (hupd : ∀ x ∈ Sched.dueEntries now db, updFail x = false)
    (hlast : (Sched.dueEntries now db).reverse.find?
        (fun x => x.user_id == u && x.room == r) = some e)
    (h0 : findTemp db.rooms u r = some t0) :
    findTemp ((Sched.processScheduledTemperatureUpdates false updFail delFail
        now db).1).rooms u r = some e.temperature := by
  have hne : (Sched.dueEntries now db).isEmpty = false := by
    cases hd : Sched.dueEntries now db with
    | nil =>
      rw [hd] at hlast
      simp at hlast
    | cons a l => rfl
  rw [Sched.process_eq_foldl updFail delFail now db hne,
    Sched.rooms_foldl_stepEntry updFail delFail _ db hupd,
    findTemp_foldl_applyEntry u r _ db.rooms, hlast, h0]
  rfl

/-- Claim C7 witness for the amended statement: with both fixture entries
due at time 100, the last one in stored order (temperature 18) is what the
room ends at. -/
theorem c7_witness :
    ((Sched.dueEntries 100 dbSched).reverse.find?
        (fun x => x.user_id == "u" && x.room == "kitchen")
      = some ⟨2, "u", "kitchen", 18, 50⟩)
    ∧ findTemp dbSched.rooms "u" "kitchen" = some 22
    ∧ findTemp ((Sched.processScheduledTemperatureUpdates false (fun _ => false)
        (fun _ => false) 100 dbSched).1).rooms "u" "kitchen" = some 18 :=
  ⟨by decide, by decide,
   c7_last_in_store_order_wins (fun _ => false) (fun _ => false) 100 dbSched "u" "kitchen"
     ⟨2, "u", "kitchen", 18, 50⟩ 22 (fun x _ => rfl) (by decide) (by decide)⟩

/-- Claim C8: during a tick (with distinct entry ids), a due entry whose
room-store write fails is still in the Scheduled-Change Store afterwards,
available for retry on a later tick; a due entry whose write (and delete)
succeed is gone from the Scheduled-Change Store afterwards. -/
theorem c8_retry_on_failure_delete_on_success (updFail delFail : SchedRec → Bool)
    (now : Int) (db : DB) (e : SchedRec)
    (hmem : e ∈ Sched.dueEntries now db)
    (hids : (db.sched.map (fun s => s.id)).Nodup) :
    (updFail e = true →
      e ∈ ((Sched.processScheduledTemperatureUpdates false updFail delFail
        now db).1).sched)
    ∧ (updFail e = false → delFail e = false →
      e ∉ ((Sched.processScheduledTemperatureUpdates false updFail delFail
        now db).1).sched) := by
  have hne : (Sched.dueEntries now db).isEmpty = false := by
    cases hd : Sched.dueEntries now db with
    | nil =>
      rw [hd] at hmem
      exact absurd hmem (List.not_mem_nil e)
    | cons a l => rfl
  rw [Sched.process_eq_foldl updFail delFail now db hne]
  constructor
  · intro hupd
    apply Sched.mem_sched_foldl_of_updFail updFail delFail e _ _
      (fun x hx => ?_) (Sched.dueEntries_sub now db e hmem)
    by_cases hux : updFail x = true
    · exact Or.inl hux
    · refine Or.inr (fun hid => ?_)
      have hx' : x ∈ db.sched := Sched.dueEntries_sub now db x hx
      have he' : e ∈ db.sched := Sched.dueEntries_sub now db e hmem
      have : x = e := List.inj_on_of_nodup_map hids hx' he' hid
      rw [this] at hux
      exact hux hupd
  · intro hupd hdel
    exact Sched.not_mem_sched_foldl_of_applied updFail delFail e hupd hdel _ db hmem

/-- Claim C8 witness: with the write for entry id 1 failing and the write
for entry id 2 succeeding, a tick at time 100 keeps entry 1 in the store and
removes entry 2. -/
theorem c8_witness :
    ((⟨1, "u", "kitchen", 30, 100⟩ : SchedRec) ∈ Sched.dueEntries 100 dbSched)
    ∧ ((⟨2, "u", "kitchen", 18, 50⟩ : SchedRec) ∈ Sched.dueEntries 100 dbSched)
    ∧ (⟨1, "u", "kitchen", 30, 100⟩ : SchedRec) ∈
        ((Sched.processScheduledTemperatureUpdates false (fun s => s.id == 1)
          (fun _ => false) 100 dbSched).1).sched
    ∧ (⟨2, "u", "kitchen", 18, 50⟩ : SchedRec) ∉
        ((Sched.processScheduledTemperatureUpdates false (fun s => s.id == 1)
          (fun _ => false) 100 dbSched).1).sched :=
  ⟨by decide, by decide,
   (c8_retry_on_failure_delete_on_success (fun s => s.id == 1) (fun _ => false) 100 dbSched
     ⟨1, "u", "kitchen", 30, 100⟩ (by decide) (by decide)).1 (by decide),
   (c8_retry_on_failure_delete_on_success (fun s => s.id == 1) (fun _ => false) 100 dbSched
     ⟨2, "u", "kitchen", 18, 50⟩ (by decide) (by decide)).2 (by decide) rfl⟩
